import Mathlib

/-!
Verification of the story playback and voice-interaction engine of the
interactive storytelling application ("heart-voice").  JavaScript strings
are modelled as lists of characters (`Str`), the story graph as an
association list of nodes, and the asynchronous callback structure of the
player as explicit state machines producing effect lists.  Every
definition is translated from the TypeScript source
(`src/services/geminiService.ts`, `src/components/StoryPlayer.tsx`,
`src/hooks/useSpeechRecognition.ts`).
-/

/-- A JavaScript string, modelled as its list of characters. -/
abbrev Str := List Char

/-- JS `a || b` on strings: the empty string is falsy, so `a || b` yields
`b` exactly when `a` is empty. -/
def jsOrStr (a b : Str) : Str := if a.isEmpty then b else a

/-- JS `s.startsWith(pat)`: `pat` is a prefix of `s`. -/
def startsWith : Str → Str → Bool
  | _, [] => true
  | [], _ :: _ => false
  | c :: s, d :: t => c == d && startsWith s t

/-- JS `s.includes(pat)`: `pat` occurs as a contiguous substring of `s`. -/
def strIncludes : Str → Str → Bool
  | [], pat => pat.isEmpty
  | c :: s, pat => startsWith (c :: s) pat || strIncludes s pat

/-- `pat` occurs as a contiguous substring of `s` (propositional form). -/
def occursIn (pat s : Str) : Prop := ∃ p q, s = p ++ pat ++ q

/-- `suf` is a suffix of `l` (propositional form). -/
def suffixOf (suf l : Str) : Prop := ∃ p, l = p ++ suf

/-- JS `s.toLowerCase()`, faithful on the ASCII range (the identity on all
other characters, in particular on every Chinese character used by the
application). -/
def lowerStr (s : Str) : Str := s.map Char.toLower

theorem startsWith_iff (s pat : Str) :
    startsWith s pat = true ↔ ∃ q, s = pat ++ q := by
  induction pat generalizing s with
  | nil => simp [startsWith]
  | cons d t ih =>
    cases s with
    | nil => simp [startsWith]
    | cons c s =>
      simp only [startsWith, Bool.and_eq_true, beq_iff_eq, ih]
      constructor
      · rintro ⟨rfl, q, rfl⟩
        exact ⟨q, rfl⟩
      · rintro ⟨q, h⟩
        injection h with h1 h2
        exact ⟨h1, q, h2⟩

theorem strIncludes_iff (s pat : Str) :
    strIncludes s pat = true ↔ occursIn pat s := by
  induction s with
  | nil =>
    simp only [strIncludes, occursIn, List.isEmpty_iff]
    constructor
    · rintro rfl; exact ⟨[], [], rfl⟩
    · rintro ⟨p, q, h⟩
      rcases List.append_eq_nil.mp (List.append_eq_nil.mp h.symm).1 with ⟨_, h2⟩
      exact h2
  | cons c s ih =>
    simp only [strIncludes, Bool.or_eq_true, startsWith_iff, ih, occursIn]
    constructor
    · rintro (⟨q, h⟩ | ⟨p, q, h⟩)
      · exact ⟨[], q, by simp [h]⟩
      · exact ⟨c :: p, q, by simp [h]⟩
    · rintro ⟨p, q, h⟩
      cases p with
      | nil => exact Or.inl ⟨q, by simpa using h⟩
      | cons x p =>
        injection h with h1 h2
        exact Or.inr ⟨p, q, h2⟩

/-! ## Data model (`src/types.ts`)

`StoryOption` and `StoryNode` follow the interfaces in `src/types.ts`.
The node `type` field is the string union `'choice' | 'linear' | 'end'`;
`end` is a Lean keyword, so the constructor is named `endNode`. -/

inductive NodeType
  | linear
  | choice
  | endNode
deriving DecidableEq

structure StoryOption where
  label : Str
  text : Str
  keywords : Option (List Str)
  next : Str
  type : Str
deriving DecidableEq

structure StoryNode where
  id : Str
  text : Str
  audioText : Option Str
  type : NodeType
  next : Option Str
  question : Option Str
  options : Option (List StoryOption)
deriving DecidableEq

/-! ## Intent resolver, local tier (`geminiService.ts`, `matchIntentLocally`)

```
export const matchIntentLocally = (transcript, options) => {
    if (!options) return null;
    const lowerTranscript = transcript.toLowerCase();
    for (let i = 0; i < options.length; i++) {
        const opt = options[i];
        if (lowerTranscript.includes(opt.label.toLowerCase())) return i;
        if (opt.keywords && Array.isArray(opt.keywords)) {
            for (const kw of opt.keywords) {
                 if (lowerTranscript.includes(kw.toLowerCase())) return i;
            }
        }
    }
    return null;
};
```
-/

def matchIntentLocallyAux (lowerTranscript : Str) : List StoryOption → Nat → Option Nat
  | [], _ => none
  | opt :: rest, i =>
    if strIncludes lowerTranscript (lowerStr opt.label) then some i
    else
      match opt.keywords with
      | some kws =>
        if kws.any (fun kw => strIncludes lowerTranscript (lowerStr kw)) then some i
        else matchIntentLocallyAux lowerTranscript rest (i + 1)
      | none => matchIntentLocallyAux lowerTranscript rest (i + 1)

def matchIntentLocally (transcript : Str) (options : Option (List StoryOption)) : Option Nat :=
  match options with
  | none => none
  | some opts => matchIntentLocallyAux (lowerStr transcript) opts 0

/-- The specification's characterisation of one option matching: the
case-normalised transcript contains the option's case-normalised label or
one of its case-normalised keywords as a substring. -/
def optionMatches (transcript : Str) (opt : StoryOption) : Bool :=
  strIncludes (lowerStr transcript) (lowerStr opt.label) ||
    (opt.keywords.getD []).any (fun kw => strIncludes (lowerStr transcript) (lowerStr kw))

/-- The specification's characterisation of the local matcher: the index of
the first option that matches, in option order, else `none`. -/
def firstMatchIndex (transcript : Str) : List StoryOption → Option Nat
  | [] => none
  | opt :: rest =>
    if optionMatches transcript opt then some 0
    else (firstMatchIndex transcript rest).map (· + 1)

theorem optMapShift (F : Option Nat) (i : Nat) :
    F.map (fun x => x + (i + 1)) = (F.map (fun x => x + 1)).map (fun x => x + i) := by
  cases F with
  | none => rfl
  | some x =>
    show some (x + (i + 1)) = some (x + 1 + i)
    exact congrArg some (by omega)

theorem matchIntentLocallyAux_eq (t : Str) (opts : List StoryOption) (i : Nat) :
    matchIntentLocallyAux (lowerStr t) opts i =
      (firstMatchIndex t opts).map (· + i) := by
  induction opts generalizing i with
  | nil => simp [matchIntentLocallyAux, firstMatchIndex]
  | cons opt rest ih =>
    cases hl : strIncludes (lowerStr t) (lowerStr opt.label) with
    | true =>
      have hm : optionMatches t opt = true := by simp [optionMatches, hl]
      simp only [matchIntentLocallyAux, firstMatchIndex, hl, hm, if_true]
      show some i = some (0 + i)
      exact congrArg some (by omega)
    | false =>
      cases hk : opt.keywords with
      | none =>
        have hm : optionMatches t opt = false := by simp [optionMatches, hl, hk]
        have step : matchIntentLocallyAux (lowerStr t) (opt :: rest) i
            = matchIntentLocallyAux (lowerStr t) rest (i + 1) := by
          simp only [matchIntentLocallyAux, hl, hk, Bool.false_eq_true, if_false]
        have stepF : firstMatchIndex t (opt :: rest) = (firstMatchIndex t rest).map (· + 1) := by
          simp only [firstMatchIndex, hm, Bool.false_eq_true, if_false]
        rw [step, stepF, ih]
        exact optMapShift _ i
      | some kws =>
        cases hany : kws.any (fun kw => strIncludes (lowerStr t) (lowerStr kw)) with
        | true =>
          have hm : optionMatches t opt = true := by simp [optionMatches, hk, hany]
          simp only [matchIntentLocallyAux, firstMatchIndex, hl, hm, hk, hany,
            Bool.false_eq_true, if_false, if_true]
          show some i = some (0 + i)
          exact congrArg some (by omega)
        | false =>
          have hm : optionMatches t opt = false := by simp [optionMatches, hl, hk, hany]
          have step : matchIntentLocallyAux (lowerStr t) (opt :: rest) i
              = matchIntentLocallyAux (lowerStr t) rest (i + 1) := by
            simp only [matchIntentLocallyAux, hl, hk, hany, Bool.false_eq_true, if_false]
          have stepF : firstMatchIndex t (opt :: rest) = (firstMatchIndex t rest).map (· + 1) := by
            simp only [firstMatchIndex, hm, Bool.false_eq_true, if_false]
          rw [step, stepF, ih]
          exact optMapShift _ i

/-- The options of the spec's local-match precedence example:
`[{label:"去追", keywords:["追","跟"]}, {label:"告诉妈妈", keywords:["妈妈"]}]`. -/
def c4Options : List StoryOption :=
  [ { label := "去追".data, text := "去追".data,
      keywords := some ["追".data, "跟".data], next := "n1".data, type := "Confidence".data },
    { label := "告诉妈妈".data, text := "告诉妈妈".data,
      keywords := some ["妈妈".data], next := "n2".data, type := "Social".data } ]

/-- C4: `matchIntentLocally` performs a case-normalised substring
containment check of the transcript against each option's label and each
of its recognition keywords, in option order, returning the index of the
first option that matches and `none` when no option matches or the options
argument is null; on the options
`[{label:"去追", keywords:["追","跟"]}, {label:"告诉妈妈", keywords:["妈妈"]}]`
with transcript `"我要去追"` it returns index 0. -/
theorem matchIntentLocally_first_match :
    (∀ t : Str, matchIntentLocally t none = none) ∧
    (∀ (t : Str) (opts : List StoryOption),
      matchIntentLocally t (some opts) = firstMatchIndex t opts) ∧
    matchIntentLocally "我要去追".data (some c4Options) = some 0 := by
  refine ⟨fun t => rfl, fun t opts => ?_, by decide⟩
  simpa using matchIntentLocallyAux_eq t opts 0

theorem firstMatchIndex_sound (t : Str) :
    ∀ (opts : List StoryOption) (i : Nat), firstMatchIndex t opts = some i →
      i < opts.length ∧ ∃ opt, opts[i]? = some opt ∧ optionMatches t opt = true := by
  intro opts
  induction opts with
  | nil => intro i h; simp [firstMatchIndex] at h
  | cons opt rest ih =>
    intro i h
    cases hm : optionMatches t opt with
    | true =>
      rw [show firstMatchIndex t (opt :: rest) = some 0 by
        simp only [firstMatchIndex, hm, if_true]] at h
      cases h
      exact ⟨Nat.succ_pos _, opt, by simp, hm⟩
    | false =>
      rw [show firstMatchIndex t (opt :: rest) = (firstMatchIndex t rest).map (· + 1) by
        simp only [firstMatchIndex, hm, Bool.false_eq_true, if_false]] at h
      cases hF : firstMatchIndex t rest with
      | none => rw [hF] at h; cases h
      | some j =>
        rw [hF] at h
        have hij : j + 1 = i := Option.some_inj.mp h
        subst hij
        rcases ih j hF with ⟨hlt, o, ho, hmo⟩
        exact ⟨by simpa using Nat.succ_lt_succ hlt, o, by simpa using ho, hmo⟩

/-- C10: `matchIntentLocally` is total and in-bounds: it returns `none` on
a null options argument, and whenever it returns an index `i` then `i`
is a valid index into the options list and the lowercased transcript
contains option `i`'s lowercased label or one of its lowercased keywords
as a substring. -/
theorem matchIntentLocally_sound :
    (∀ t : Str, matchIntentLocally t none = none) ∧
    (∀ (t : Str) (opts : List StoryOption) (i : Nat),
      matchIntentLocally t (some opts) = some i →
        i < opts.length ∧ ∃ opt, opts[i]? = some opt ∧ optionMatches t opt = true) := by
  refine ⟨fun t => rfl, fun t opts i h => firstMatchIndex_sound t opts i ?_⟩
  rw [show matchIntentLocally t (some opts) = firstMatchIndex t opts from by
      simpa using matchIntentLocallyAux_eq t opts 0] at h
  exact h

/-- Witness for C10 at a concrete input: on the example options and the
transcript `"我要去追"`, the returned index 0 is in bounds and option 0
matches. -/
theorem matchIntentLocally_sound_witness :
    0 < c4Options.length ∧
      ∃ opt, c4Options[0]? = some opt ∧ optionMatches "我要去追".data opt = true := by
  have h := matchIntentLocally_sound.2 "我要去追".data c4Options 0 (by decide)
  exact ⟨h.1, h.2⟩

/-! ## Narration text builder (`geminiService.ts`, `constructNodeSpeech`)

```
export const constructNodeSpeech = (node) => {
    let textToRead = node.audioText || node.text || "";
    const ensurePunctuation = (text, defaultPunct = "。") => {
        const trimmed = text.trim();
        if (!trimmed) return "";
        const lastChar = trimmed.slice(-1);
        if (!['。','！','？','.','!','?'].includes(lastChar)) return trimmed + defaultPunct;
        return trimmed;
    };
    textToRead = ensurePunctuation(textToRead);
    if (node.type === 'choice') {
        if (node.question && !textToRead.includes(node.question))
            textToRead += ` ${node.question}`;
        textToRead = ensurePunctuation(textToRead, "？");
        if (node.options && node.options.length > 0) {
            const labels = node.options.map(opt => opt.label);
            const optionsText = labels.join('，或者 ');
            textToRead += ` 你可以说：${optionsText}。`;
        }
    }
    return textToRead.trim();
};
```
-/

/-- The whitespace test used by JS `trim` (restricted to the ASCII
whitespace characters that `Char.isWhitespace` recognises). -/
def wsChar (c : Char) : Bool := c.isWhitespace

def trimLeft (s : Str) : Str := s.dropWhile wsChar

def trimRight (s : Str) : Str := (s.reverse.dropWhile wsChar).reverse

/-- JS `s.trim()`: strip whitespace from both ends. -/
def trimStr (s : Str) : Str := trimLeft (trimRight s)

/-- The terminal punctuation set of `ensurePunctuation`. -/
def terminalPunct : List Char := ['。', '！', '？', '.', '!', '?']

/-- The inner helper `ensurePunctuation(text, defaultPunct)`. -/
def ensurePunctuation (text : Str) (defaultPunct : Str) : Str :=
  let trimmed := trimStr text
  match trimmed.getLast? with
  | none => []
  | some c => if c ∈ terminalPunct then trimmed else trimmed ++ defaultPunct

/-- JS `Array.prototype.join(sep)` on a list of strings. -/
def joinSep (sep : Str) : List Str → Str
  | [] => []
  | [x] => x
  | x :: y :: rest => x ++ sep ++ joinSep sep (y :: rest)

def constructNodeSpeech (node : StoryNode) : Str :=
  let textToRead := jsOrStr (node.audioText.getD []) node.text
  let t1 := ensurePunctuation textToRead "。".data
  if node.type = NodeType.choice then
    let t2 :=
      match node.question with
      | some q => if !q.isEmpty && !strIncludes t1 q then t1 ++ ' ' :: q else t1
      | none => t1
    let t3 := ensurePunctuation t2 "？".data
    let t4 :=
      match node.options with
      | some opts =>
        if opts.length > 0 then
          t3 ++ " 你可以说：".data
            ++ joinSep "，或者 ".data (opts.map (fun o => o.label)) ++ "。".data
        else t3
      | none => t3
    trimStr t4
  else trimStr t1

theorem occursIn_append_left (pat s t : Str) : occursIn pat s → occursIn pat (s ++ t) := by
  rintro ⟨p, q, rfl⟩
  exact ⟨p, q ++ t, by simp⟩

theorem occursIn_append_right (pat s t : Str) : occursIn pat s → occursIn pat (t ++ s) := by
  rintro ⟨p, q, rfl⟩
  exact ⟨t ++ p, q, by simp⟩

theorem occursIn_of_suffixOf (pat s l : Str) :
    suffixOf s l → occursIn pat s → occursIn pat l := by
  rintro ⟨p, rfl⟩ h
  exact occursIn_append_right pat s p h

theorem occursIn_joinSep (sep l : Str) :
    ∀ ls : List Str, l ∈ ls → occursIn l (joinSep sep ls) := by
  intro ls
  induction ls with
  | nil => intro h; cases h
  | cons x rest ih =>
    intro h
    cases rest with
    | nil =>
      have hx : l = x := List.mem_singleton.mp h
      subst hx
      exact ⟨[], [], by simp [joinSep]⟩
    | cons y t =>
      rcases List.mem_cons.mp h with hx | hmem
      · subst hx
        exact ⟨[], sep ++ joinSep sep (y :: t), by simp [joinSep]⟩
      · have h2 := occursIn_append_right l (joinSep sep (y :: t)) (x ++ sep) (ih hmem)
        show occursIn l (x ++ sep ++ joinSep sep (y :: t))
        exact h2

theorem trimRight_last_not_ws (a : Str) (c : Char) (hc : wsChar c = false) :
    trimRight (a ++ [c]) = a ++ [c] := by
  rw [trimRight, List.reverse_append]
  show ((c :: a.reverse).dropWhile wsChar).reverse = _
  rw [List.dropWhile_cons_of_neg (by simp [hc])]
  simp

theorem suffixOf_trimLeft (x : Char) (hx : wsChar x = false) (b : Str) :
    ∀ a : Str, suffixOf (x :: b) (trimLeft (a ++ x :: b)) := by
  intro a
  induction a with
  | nil =>
    show suffixOf (x :: b) (trimLeft (x :: b))
    rw [trimLeft, List.dropWhile_cons_of_neg (by simp [hx])]
    exact ⟨[], rfl⟩
  | cons c a ih =>
    show suffixOf (x :: b) (trimLeft (c :: (a ++ x :: b)))
    cases hc : wsChar c with
    | true =>
      rw [trimLeft, List.dropWhile_cons_of_pos (by simp [hc])]
      exact ih
    | false =>
      rw [trimLeft, List.dropWhile_cons_of_neg (by simp [hc])]
      exact ⟨c :: a, rfl⟩

/-- The enumeration appended by `constructNodeSpeech` for a choice node
survives the final `trim()` as a suffix of the result. -/
theorem trimStr_keeps_enum (t3 J : Str) :
    suffixOf ("你可以说：".data ++ J ++ "。".data)
      (trimStr (t3 ++ " 你可以说：".data ++ J ++ "。".data)) := by
  have hd : ("。".data : Str) = ['。'] := rfl
  have hsp : (" 你可以说：".data : Str) = ' ' :: '你' :: "可以说：".data := rfl
  have h2 : trimRight (t3 ++ " 你可以说：".data ++ J ++ "。".data)
      = t3 ++ " 你可以说：".data ++ J ++ "。".data := by
    rw [hd]
    exact trimRight_last_not_ws _ _ (by decide)
  rw [trimStr, h2]
  have h3 : t3 ++ " 你可以说：".data ++ J ++ "。".data
      = (t3 ++ [' ']) ++ '你' :: ("可以说：".data ++ J ++ "。".data) := by
    rw [hsp]
    simp [List.append_assoc]
  have henum : "你可以说：".data ++ J ++ "。".data
      = '你' :: ("可以说：".data ++ J ++ "。".data) := by
    rw [show ("你可以说：".data : Str) = '你' :: "可以说：".data from rfl]
    simp [List.append_assoc]
  rw [h3, henum]
  exact suffixOf_trimLeft '你' (by decide) _ _

/-- The concrete node refuting the exactly-once part of the claim: a
choice node whose narration text already contains the label `去追`. -/
def c3Node : StoryNode :=
  { id := "start".data, text := "去追。".data, audioText := none,
    type := NodeType.choice, next := none, question := none,
    options := some [ { label := "去追".data, text := "我要去追".data,
                        keywords := none, next := "n1".data, type := "Confidence".data } ] }

/-- Number of start positions at which `pat` occurs in `s`. -/
def countOccurs (pat s : Str) : Nat :=
  ((List.range (s.length + 1)).filter (fun i => startsWith (s.drop i) pat)).length

/-- C3 counterexample: on `c3Node` the option label `去追` occurs twice in
the built speech (once in the narration text and once in the appended
enumeration), so the returned string does not contain each option's label
exactly once. -/
theorem constructNodeSpeech_label_twice :
    countOccurs "去追".data (constructNodeSpeech c3Node) = 2 ∧ (2 : Nat) ≠ 1 := by
  constructor
  · decide
  · decide

/-- C3 (amended): `constructNodeSpeech` is a pure function of the node
(two calls on equal nodes return identical strings); for every choice
node with a non-empty options list the returned string contains each
option's label as a substring, and ends with the enumeration
`你可以说：l1，或者 l2…。` listing the labels in the node's option order. -/
theorem constructNodeSpeech_choice_labels
    (node : StoryNode) (opts : List StoryOption)
    (htype : node.type = NodeType.choice)
    (hopts : node.options = some opts)
    (hne : opts ≠ []) :
    (∀ n : StoryNode, n = node → constructNodeSpeech n = constructNodeSpeech node) ∧
    suffixOf ("你可以说：".data
        ++ joinSep "，或者 ".data (opts.map (fun o => o.label)) ++ "。".data)
      (constructNodeSpeech node) ∧
    (∀ opt ∈ opts, occursIn opt.label (constructNodeSpeech node)) := by
  have hshape : constructNodeSpeech node =
      trimStr (ensurePunctuation
          (match node.question with
           | some q =>
             if !q.isEmpty && !strIncludes (ensurePunctuation
                 (jsOrStr (node.audioText.getD []) node.text) "。".data) q then
               ensurePunctuation (jsOrStr (node.audioText.getD []) node.text) "。".data ++ ' ' :: q
             else ensurePunctuation (jsOrStr (node.audioText.getD []) node.text) "。".data
           | none => ensurePunctuation (jsOrStr (node.audioText.getD []) node.text) "。".data)
          "？".data
        ++ " 你可以说：".data
        ++ joinSep "，或者 ".data (opts.map (fun o => o.label)) ++ "。".data) := by
    rcases opts with _ | ⟨o, rest⟩
    · exact absurd rfl hne
    · rw [constructNodeSpeech, if_pos htype, hopts]
      simp only [List.length_cons, Nat.succ_sub_one]
      rw [if_pos (Nat.succ_pos rest.length)]
  refine ⟨fun n hn => by rw [hn], ?_, ?_⟩
  · rw [hshape]
    exact trimStr_keeps_enum _ _
  · intro opt hopt
    have hJ : occursIn opt.label
        (joinSep "，或者 ".data (opts.map (fun o => o.label))) :=
      occursIn_joinSep _ _ _ (List.mem_map_of_mem (fun o => o.label) hopt)
    have hEnum : occursIn opt.label
        ("你可以说：".data ++ joinSep "，或者 ".data (opts.map (fun o => o.label)) ++ "。".data) := by
      apply occursIn_append_left
      exact occursIn_append_right _ _ _ hJ
    rw [hshape]
    exact occursIn_of_suffixOf _ _ _ (trimStr_keeps_enum _ _) hEnum

/-- Witness for C3 at a concrete input: a choice node with options
`A`/`B` and text `出发了`. -/
def c3WitnessNode : StoryNode :=
  { id := "q1".data, text := "出发了".data, audioText := none,
    type := NodeType.choice, next := none, question := some "去哪里？".data,
    options := some [ { label := "A".data, text := "选A".data,
                        keywords := none, next := "endA".data, type := "Logic".data },
                      { label := "B".data, text := "选B".data,
                        keywords := none, next := "endB".data, type := "Social".data } ] }

theorem constructNodeSpeech_choice_labels_witness :
    suffixOf ("你可以说：".data
        ++ joinSep "，或者 ".data ((c3WitnessNode.options.getD []).map (fun o => o.label))
        ++ "。".data)
      (constructNodeSpeech c3WitnessNode) ∧
    occursIn "A".data (constructNodeSpeech c3WitnessNode) := by
  have h := constructNodeSpeech_choice_labels c3WitnessNode
    (c3WitnessNode.options.getD []) rfl rfl (by decide)
  refine ⟨h.2.1, ?_⟩
  have := h.2.2 { label := "A".data, text := "选A".data,
                  keywords := none, next := "endA".data, type := "Logic".data } (by decide)
  exact this

/-- C8 counterexample: a linear node with empty narration text and no
spoken override; `constructNodeSpeech` returns the empty string, not a
fixed non-empty fallback phrase. -/
def c8Node : StoryNode :=
  { id := "n".data, text := [], audioText := none,
    type := NodeType.linear, next := some "x".data, question := none, options := none }

theorem constructNodeSpeech_no_fallback :
    constructNodeSpeech c8Node = [] ∧ "please look at the screen".data ≠ ([] : Str) := by
  constructor
  · rfl
  · decide

/-- C8 (amended): for every non-choice node whose spoken-override text is
absent or empty and whose display text is empty, `constructNodeSpeech`
returns the empty string; the source contains no error-leak-marker check
and no fallback phrase. -/
theorem constructNodeSpeech_empty
    (node : StoryNode)
    (haudio : node.audioText = none ∨ node.audioText = some [])
    (htext : node.text = [])
    (htype : node.type ≠ NodeType.choice) :
    constructNodeSpeech node = [] := by
  have h0 : jsOrStr (node.audioText.getD []) node.text = [] := by
    rcases haudio with h | h <;> rw [h, htext] <;> rfl
  rw [constructNodeSpeech, if_neg htype, h0]
  rfl

theorem constructNodeSpeech_empty_witness : constructNodeSpeech c8Node = [] :=
  constructNodeSpeech_empty c8Node (Or.inl rfl) rfl (by decide)

/-! ## Shared retry helper (`geminiService.ts`, `withRetry` and
`QuotaExhaustedError`)

```
export class QuotaExhaustedError extends Error {
    constructor() { super("API_QUOTA_EXHAUSTED"); this.name = "QuotaExhaustedError"; }
}
async function withRetry(operation, retries = 3, baseDelay = 2000) {
    try {
        const ai = getAI();
        return await operation(ai);
    } catch (error) {
        const isQuotaError = error.status === 429 || error.code === 429 ||
            (error.message && error.message.includes('429'));
        const isLimitZero = error.message && (
            error.message.includes('limit: 0') || error.message.includes('Quota exceeded'));
        if (isLimitZero) { errorBus.emit(...); throw new QuotaExhaustedError(); }
        if (isQuotaError && retries > 0) {
            const delay = baseDelay * Math.pow(2, 3 - retries);
            await new Promise(resolve => setTimeout(resolve, delay));
            return withRetry(operation, retries - 1, baseDelay);
        }
        throw error;
    }
}
```

The environment is modelled as a function from the attempt number to the
attempt's outcome (`getAI` plus `operation`, which run together inside the
`try`); the returned list records the back-off delays awaited between
consecutive attempts.  Every call site of `withRetry` in the source uses
the default `retries = 3`, `baseDelay = 2000`; the delay exponent
`3 - retries` is truncated natural subtraction, which agrees with the
JS `Math.pow(2, 3 - retries)` on the range `retries ≤ 3` actually used. -/

/-- A thrown JS error, with the fields `withRetry` inspects. -/
structure JsError where
  status : Option Nat
  code : Option Nat
  message : Str
deriving DecidableEq

/-- `error.status === 429 || error.code === 429 || error.message.includes('429')`. -/
def isQuotaError (e : JsError) : Bool :=
  e.status == some 429 || e.code == some 429 || strIncludes e.message "429".data

/-- `error.message.includes('limit: 0') || error.message.includes('Quota exceeded')`. -/
def isLimitZero (e : JsError) : Bool :=
  strIncludes e.message "limit: 0".data || strIncludes e.message "Quota exceeded".data

/-- The error surfaced by `withRetry`: either the distinguished
`QuotaExhaustedError` or the original error rethrown. -/
inductive RetryError
  | quotaExhausted
  | original (e : JsError)
deriving DecidableEq

/-- The error thrown by `getAI()` when no API key is configured. -/
def missingKeyError : JsError :=
  { status := none, code := none,
    message := "API Key is missing. Please set it in the environment or via the settings.".data }

def withRetry (op : Nat → Except JsError α) (baseDelay : Nat) :
    Nat → Nat → Except RetryError α × List Nat
  | attempt, retries =>
    match op attempt with
    | Except.ok a => (Except.ok a, [])
    | Except.error e =>
      if isLimitZero e then (Except.error RetryError.quotaExhausted, [])
      else
        match retries with
        | r + 1 =>
          if isQuotaError e then
            let rest := withRetry op baseDelay (attempt + 1) r
            (rest.1, (baseDelay * 2 ^ (3 - (r + 1))) :: rest.2)
          else (Except.error (RetryError.original e), [])
        | 0 => (Except.error (RetryError.original e), [])

theorem withRetry_ok {α : Type} {op : Nat → Except JsError α} {bd attempt retries : Nat}
    {a : α} (h : op attempt = Except.ok a) :
    withRetry op bd attempt retries = (Except.ok a, []) := by
  rw [withRetry, h]

theorem withRetry_stop {α : Type} {op : Nat → Except JsError α} {bd attempt : Nat}
    {e : JsError} (h : op attempt = Except.error e) (hz : isLimitZero e = true)
    (retries : Nat) :
    withRetry op bd attempt retries = (Except.error RetryError.quotaExhausted, []) := by
  rw [withRetry, h]
  simp [hz]

theorem withRetry_give_up {α : Type} {op : Nat → Except JsError α} {bd attempt : Nat}
    {e : JsError} (h : op attempt = Except.error e) (hz : isLimitZero e = false)
    (hq : isQuotaError e = false) (retries : Nat) :
    withRetry op bd attempt retries = (Except.error (RetryError.original e), []) := by
  rw [withRetry, h]
  cases retries <;> simp [hz, hq]

theorem withRetry_exhausted {α : Type} {op : Nat → Except JsError α} {bd attempt : Nat}
    {e : JsError} (h : op attempt = Except.error e) (hz : isLimitZero e = false) :
    withRetry op bd attempt 0 = (Except.error (RetryError.original e), []) := by
  rw [withRetry, h]
  simp [hz]

theorem withRetry_retry {α : Type} {op : Nat → Except JsError α} {bd attempt : Nat}
    {e : JsError} (h : op attempt = Except.error e) (hz : isLimitZero e = false)
    (hq : isQuotaError e = true) (r : Nat) :
    withRetry op bd attempt (r + 1) =
      ((withRetry op bd (attempt + 1) r).1,
        (bd * 2 ^ (3 - (r + 1))) :: (withRetry op bd (attempt + 1) r).2) := by
  rw [withRetry, h]
  simp [hz, hq]

/-- C5: with the cap of 4 attempts (1 initial + 3 retries, the default at
every call site), an operation that fails with a rate-limit (429) error on
exactly the first `N` attempts (`N` strictly below the cap) and then
succeeds makes `withRetry` return the success after waiting the strictly
increasing exponential delays `2000·2^0, …, 2000·2^(N-1)`; an operation
that fails with rate-limit errors on all 4 attempts makes `withRetry`
propagate the final (4th) error instead of retrying forever. -/
theorem withRetry_backoff_bound {α : Type} (op : Nat → Except JsError α)
    (e : Nat → JsError) (a : α) (N : Nat) (hN : N ≤ 3)
    (hflags : ∀ i, isQuotaError (e i) = true ∧ isLimitZero (e i) = false) :
    ((∀ i, i < N → op i = Except.error (e i)) → op N = Except.ok a →
      withRetry op 2000 0 3 =
        (Except.ok a, (List.range N).map (fun i => 2000 * 2 ^ i)) ∧
      List.Chain' (· < ·) ((List.range N).map (fun i => 2000 * 2 ^ i))) ∧
    ((∀ i, i ≤ 3 → op i = Except.error (e i)) →
      withRetry op 2000 0 3 =
        (Except.error (RetryError.original (e 3)), [2000, 4000, 8000])) := by
  constructor
  · intro hfail hsucc
    interval_cases N
    · exact ⟨withRetry_ok hsucc, by simp⟩
    · have s3 : withRetry op 2000 0 3 =
          ((withRetry op 2000 1 2).1, 2000 :: (withRetry op 2000 1 2).2) := by
        simpa using withRetry_retry (hfail 0 (by omega)) (hflags 0).2 (hflags 0).1 2
      refine ⟨?_, ?_⟩
      · rw [s3, withRetry_ok hsucc]
        rfl
      · show List.Chain' (· < ·) [2000]
        simp
    · have s3 : withRetry op 2000 0 3 =
          ((withRetry op 2000 1 2).1, 2000 :: (withRetry op 2000 1 2).2) := by
        simpa using withRetry_retry (hfail 0 (by omega)) (hflags 0).2 (hflags 0).1 2
      have s2 : withRetry op 2000 1 2 =
          ((withRetry op 2000 2 1).1, 4000 :: (withRetry op 2000 2 1).2) := by
        simpa using withRetry_retry (hfail 1 (by omega)) (hflags 1).2 (hflags 1).1 1
      refine ⟨?_, ?_⟩
      · rw [s3, s2, withRetry_ok hsucc]
        rfl
      · show List.Chain' (· < ·) [2000, 4000]
        simp [List.chain'_cons]
    · have s3 : withRetry op 2000 0 3 =
          ((withRetry op 2000 1 2).1, 2000 :: (withRetry op 2000 1 2).2) := by
        simpa using withRetry_retry (hfail 0 (by omega)) (hflags 0).2 (hflags 0).1 2
      have s2 : withRetry op 2000 1 2 =
          ((withRetry op 2000 2 1).1, 4000 :: (withRetry op 2000 2 1).2) := by
        simpa using withRetry_retry (hfail 1 (by omega)) (hflags 1).2 (hflags 1).1 1
      have s1 : withRetry op 2000 2 1 =
          ((withRetry op 2000 3 0).1, 8000 :: (withRetry op 2000 3 0).2) := by
        simpa using withRetry_retry (hfail 2 (by omega)) (hflags 2).2 (hflags 2).1 0
      refine ⟨?_, ?_⟩
      · rw [s3, s2, s1, withRetry_ok hsucc]
        rfl
      · show List.Chain' (· < ·) [2000, 4000, 8000]
        simp [List.chain'_cons]
  · intro hfail
    have s3 : withRetry op 2000 0 3 =
        ((withRetry op 2000 1 2).1, 2000 :: (withRetry op 2000 1 2).2) := by
      simpa using withRetry_retry (hfail 0 (by omega)) (hflags 0).2 (hflags 0).1 2
    have s2 : withRetry op 2000 1 2 =
        ((withRetry op 2000 2 1).1, 4000 :: (withRetry op 2000 2 1).2) := by
      simpa using withRetry_retry (hfail 1 (by omega)) (hflags 1).2 (hflags 1).1 1
    have s1 : withRetry op 2000 2 1 =
        ((withRetry op 2000 3 0).1, 8000 :: (withRetry op 2000 3 0).2) := by
      simpa using withRetry_retry (hfail 2 (by omega)) (hflags 2).2 (hflags 2).1 0
    have s0 : withRetry op 2000 3 0 = (Except.error (RetryError.original (e 3)), []) :=
      withRetry_exhausted (hfail 3 (by omega)) (hflags 3).2
    rw [s3, s2, s1, s0]

/-- A concrete 429 rate-limit error. -/
def rateLimitError : JsError := { status := some 429, code := none, message := "429".data }

/-- Witness for C5: with two 429 failures followed by success, `withRetry`
returns the success after delays 2000 and 4000; with four 429 failures it
propagates the final error. -/
theorem withRetry_backoff_bound_witness :
    (withRetry (fun i => if i < 2 then Except.error rateLimitError else Except.ok 7)
        2000 0 3 = (Except.ok 7, [2000, 4000]) ∧
      List.Chain' (· < ·) ([2000, 4000] : List Nat)) ∧
    withRetry (fun _ => (Except.error rateLimitError : Except JsError Nat)) 2000 0 3 =
      (Except.error (RetryError.original rateLimitError), [2000, 4000, 8000]) := by
  have h := withRetry_backoff_bound
    (fun i => if i < 2 then Except.error rateLimitError else Except.ok 7)
    (fun _ => rateLimitError) 7 2 (by omega)
    (fun i => (by decide :
      isQuotaError rateLimitError = true ∧ isLimitZero rateLimitError = false))
  have h2 := withRetry_backoff_bound
    (fun _ => (Except.error rateLimitError : Except JsError Nat))
    (fun _ => rateLimitError) 0 3 (by omega)
    (fun i => (by decide :
      isQuotaError rateLimitError = true ∧ isLimitZero rateLimitError = false))
  refine ⟨?_, h2.2 (fun i _ => rfl)⟩
  have h3 := h.1 (fun i hi => by interval_cases i <;> rfl) (by rfl)
  exact h3

/-- C6: `withRetry` classifies failures distinctly: an error whose message
contains `limit: 0` or `Quota exceeded` is never retried and is surfaced
immediately as the distinguished `QuotaExhaustedError` with no back-off
delay, regardless of the remaining retry budget; and an error that is
neither a rate-limit nor a quota error (such as the missing-API-key
configuration error, whose classification is part of the statement) is
never retried and propagates immediately as itself. -/
theorem withRetry_classification {α : Type} (op : Nat → Except JsError α)
    (baseDelay retries : Nat) (e : JsError) (h0 : op 0 = Except.error e) :
    (isLimitZero e = true →
      withRetry op baseDelay 0 retries = (Except.error RetryError.quotaExhausted, [])) ∧
    (isLimitZero e = false → isQuotaError e = false →
      withRetry op baseDelay 0 retries = (Except.error (RetryError.original e), [])) ∧
    (isQuotaError missingKeyError = false ∧ isLimitZero missingKeyError = false) := by
  refine ⟨?_, ?_, by decide⟩
  · intro hz
    exact withRetry_stop h0 hz retries
  · intro hz hq
    exact withRetry_give_up h0 hz hq retries

/-- Witness for C6: a quota-exhausted message is surfaced immediately as
`QuotaExhaustedError` even with the full retry budget available, and the
missing-API-key error propagates immediately unretried. -/
theorem withRetry_classification_witness :
    withRetry (fun _ => (Except.error
        { status := none, code := none,
          message := "Quota exceeded for metric".data } : Except JsError Nat)) 2000 0 3 =
      (Except.error RetryError.quotaExhausted, []) ∧
    withRetry (fun _ => (Except.error missingKeyError : Except JsError Nat)) 2000 0 3 =
      (Except.error (RetryError.original missingKeyError), []) := by
  have h1 := withRetry_classification
    (fun _ => (Except.error
      { status := none, code := none,
        message := "Quota exceeded for metric".data } : Except JsError Nat)) 2000 3 _ rfl
  have h2 := withRetry_classification
    (fun _ => (Except.error missingKeyError : Except JsError Nat)) 2000 3 _ rfl
  exact ⟨h1.1 (by decide), h2.2.1 (by decide) (by decide)⟩

/-! ## Narration audio unit (`geminiService.ts`, `playTextToSpeech`,
`stopAudio`, `activeRequestId`)

```
let currentSource = null;
let activeRequestId = 0;
export const stopAudio = () => {
    activeRequestId++;
    if (currentSource) { currentSource.stop(); currentSource.disconnect(); currentSource = null; }
    if (window.speechSynthesis) window.speechSynthesis.cancel();
};
export const playTextToSpeech = async ({ text, ..., onEnd, onNearEnd, onError }) => {
    stopAudio();
    const requestId = ++activeRequestId;
    const playBrowserTTS = (v) => {
        if (window.speechSynthesis) {
            ...
            utterance.onend = () => { if (requestId === activeRequestId && onEnd) onEnd(); };
            utterance.onerror = (e) => { if (requestId === activeRequestId && onEnd) onEnd(); };
            window.speechSynthesis.speak(utterance);
        } else { if (onEnd) setTimeout(onEnd, 1000); }   // <-- NO token guard
    };
    ...
    if (requestId !== activeRequestId) return;           // before source.start()
    source.start(); currentSource = source;
    if (onNearEnd) setTimeout(() => { if (requestId === activeRequestId) onNearEnd(); }, t);
    source.onended = () => {
        if (requestId === activeRequestId) { currentSource = null; if (onEnd) onEnd(); } };
    ... catch (error) { if (requestId !== activeRequestId) return; ... }
};
```

The global audio module state is the pair (activeRequestId, currentSource);
a playing source is identified by the request token of the call that
started it.  Each asynchronous continuation of a `playTextToSpeech` call is
an event carrying the token the call captured; `stepAudio` is the handler
code that runs when the event fires. -/

structure AudioState where
  activeRequestId : Nat
  currentSource : Option Nat
deriving DecidableEq

/-- `stopAudio()`: bump the token and stop/disconnect any playing source. -/
def stopAudio (s : AudioState) : AudioState :=
  { activeRequestId := s.activeRequestId + 1, currentSource := none }

/-- The synchronous head of `playTextToSpeech`: `stopAudio()` followed by
`const requestId = ++activeRequestId`.  Returns the new module state and
the request token captured by the call's closures. -/
def playCallBegin (s : AudioState) : AudioState × Nat :=
  let s1 := stopAudio s
  ({ activeRequestId := s1.activeRequestId + 1, currentSource := s1.currentSource },
    s1.activeRequestId + 1)

/-- The events that touch the audio module state: a new `playTextToSpeech`
call, a `stopAudio()` call, and the asynchronous continuations of a call
with token `tok`: the guarded step that starts the Web Audio source, the
`source.onended` handler, the `onNearEnd` timer, the browser-TTS
`utterance.onend`/`onerror` handlers, the `catch` handler, and the
unguarded `setTimeout(onEnd, 1000)` scheduled by `playBrowserTTS` when
`window.speechSynthesis` is absent. -/
inductive AudioEvent
  | play
  | stop
  | sourceStart (tok : Nat)
  | sourceEnded (tok : Nat)
  | nearEndTimer (tok : Nat)
  | utterEnded (tok : Nat)
  | errorCatch (tok : Nat)
  | noSynthTimer (tok : Nat)
deriving DecidableEq

/-- The user-visible callbacks a handler execution honours. -/
inductive Fired
  | onEnd (tok : Nat)
  | onNearEnd (tok : Nat)
  | errorHandled (tok : Nat)
deriving DecidableEq

def stepAudio (s : AudioState) : AudioEvent → AudioState × List Fired
  | AudioEvent.play => ((playCallBegin s).1, [])
  | AudioEvent.stop => (stopAudio s, [])
  | AudioEvent.sourceStart tok =>
    if tok = s.activeRequestId then ({ s with currentSource := some tok }, []) else (s, [])
  | AudioEvent.sourceEnded tok =>
    if tok = s.activeRequestId then ({ s with currentSource := none }, [Fired.onEnd tok])
    else (s, [])
  | AudioEvent.nearEndTimer tok =>
    if tok = s.activeRequestId then (s, [Fired.onNearEnd tok]) else (s, [])
  | AudioEvent.utterEnded tok =>
    if tok = s.activeRequestId then (s, [Fired.onEnd tok]) else (s, [])
  | AudioEvent.errorCatch tok =>
    if tok = s.activeRequestId then (s, [Fired.errorHandled tok]) else (s, [])
  | AudioEvent.noSynthTimer tok => (s, [Fired.onEnd tok])

def runAudio (s : AudioState) : List AudioEvent → AudioState × List Fired
  | [] => (s, [])
  | ev :: evs =>
    ((runAudio (stepAudio s ev).1 evs).1,
      (stepAudio s ev).2 ++ (runAudio (stepAudio s ev).1 evs).2)

/-- The single-active-source invariant: a playing source always belongs to
the current (newest) request token. -/
def audioInv (s : AudioState) : Prop :=
  ∀ t, s.currentSource = some t → t = s.activeRequestId

/-- C2 counterexample: on a platform without `speechSynthesis`,
`playBrowserTTS` schedules `setTimeout(onEnd, 1000)` with no token guard.
Starting from a fresh module state, the first call takes token 2, a second
call bumps the active token to 4, and the first call's fallback timer then
still fires its `onEnd` — a completion callback of an earlier call honoured
after a later call. -/
theorem playTextToSpeech_stale_fallback_onEnd :
    (playCallBegin { activeRequestId := 0, currentSource := none }).2 = 2 ∧
    runAudio { activeRequestId := 0, currentSource := none }
        [AudioEvent.play, AudioEvent.play, AudioEvent.noSynthTimer 2] =
      ({ activeRequestId := 4, currentSource := none }, [Fired.onEnd 2]) ∧
    (2 : Nat) ≠ 4 := by
  refine ⟨rfl, ?_, by decide⟩
  rfl

/-- C2 (amended): every `playTextToSpeech` call first stops/disconnects
the currently playing source and takes a token strictly larger than every
earlier call's token (the active token never decreases, so a later call's
token exceeds any earlier one); the token-guarded completion callbacks
(`source.onended`, the `onNearEnd` timer, the browser-TTS utterance
handlers, and the `catch` error handler) fire nothing once the token is
stale; and at most one Web Audio source is active at a time, always the
one belonging to the newest request.  The only exception, forced by the
counterexample, is the unguarded `setTimeout(onEnd, 1000)` fallback used
when `speechSynthesis` is absent. -/
theorem playTextToSpeech_token_guard :
    (∀ s : AudioState, (playCallBegin s).1.currentSource = none ∧
      (playCallBegin s).2 = s.activeRequestId + 2 ∧
      s.activeRequestId < (playCallBegin s).2) ∧
    (∀ (s : AudioState) (evs : List AudioEvent),
      s.activeRequestId ≤ (runAudio s evs).1.activeRequestId) ∧
    (∀ (s : AudioState) (evs : List AudioEvent),
      (playCallBegin s).2 < (playCallBegin (runAudio (playCallBegin s).1 evs).1).2) ∧
    (∀ (s : AudioState) (tok : Nat), tok ≠ s.activeRequestId →
      (stepAudio s (AudioEvent.sourceEnded tok)).2 = [] ∧
      (stepAudio s (AudioEvent.nearEndTimer tok)).2 = [] ∧
      (stepAudio s (AudioEvent.utterEnded tok)).2 = [] ∧
      (stepAudio s (AudioEvent.errorCatch tok)).2 = []) ∧
    (∀ (s : AudioState) (evs : List AudioEvent),
      audioInv s → audioInv (runAudio s evs).1) := by
  have hstep : ∀ (s : AudioState) (ev : AudioEvent),
      s.activeRequestId ≤ (stepAudio s ev).1.activeRequestId := by
    intro s ev
    cases ev with
    | play => simp [stepAudio, playCallBegin, stopAudio]; omega
    | stop => simp [stepAudio, stopAudio]
    | sourceStart tok =>
      by_cases hc : tok = s.activeRequestId <;> simp [stepAudio, hc]
    | sourceEnded tok =>
      by_cases hc : tok = s.activeRequestId <;> simp [stepAudio, hc]
    | nearEndTimer tok =>
      by_cases hc : tok = s.activeRequestId <;> simp [stepAudio, hc]
    | utterEnded tok =>
      by_cases hc : tok = s.activeRequestId <;> simp [stepAudio, hc]
    | errorCatch tok =>
      by_cases hc : tok = s.activeRequestId <;> simp [stepAudio, hc]
    | noSynthTimer tok => simp [stepAudio]
  have hmono : ∀ (evs : List AudioEvent) (s : AudioState),
      s.activeRequestId ≤ (runAudio s evs).1.activeRequestId := by
    intro evs
    induction evs with
    | nil => intro s; simp [runAudio]
    | cons ev evs ih =>
      intro s
      calc s.activeRequestId ≤ (stepAudio s ev).1.activeRequestId := hstep s ev
        _ ≤ (runAudio (stepAudio s ev).1 evs).1.activeRequestId := ih _
        _ = (runAudio s (ev :: evs)).1.activeRequestId := by rw [runAudio]
  have hbegin : ∀ s : AudioState,
      (playCallBegin s).1.currentSource = none ∧
      (playCallBegin s).1.activeRequestId = s.activeRequestId + 2 ∧
      (playCallBegin s).2 = s.activeRequestId + 2 := by
    intro s
    refine ⟨rfl, ?_, ?_⟩ <;> simp [playCallBegin, stopAudio]
  have hstepInv : ∀ (s : AudioState) (ev : AudioEvent),
      audioInv s → audioInv (stepAudio s ev).1 := by
    intro s ev hinv
    cases ev with
    | play =>
      intro t ht
      rw [show (stepAudio s AudioEvent.play).1 = (playCallBegin s).1 from rfl] at ht
      rw [(hbegin s).1] at ht
      cases ht
    | stop => intro t ht; cases ht
    | sourceStart tok =>
      by_cases hc : tok = s.activeRequestId
      · intro t ht
        simp only [stepAudio, hc, if_pos rfl] at ht ⊢
        cases Option.some_inj.mp ht
        exact hc ▸ rfl
      · simpa [stepAudio, hc] using hinv
    | sourceEnded tok =>
      by_cases hc : tok = s.activeRequestId
      · intro t ht
        simp only [stepAudio, hc, if_pos rfl] at ht
        cases ht
      · simpa [stepAudio, hc] using hinv
    | nearEndTimer tok =>
      by_cases hc : tok = s.activeRequestId <;> simpa [stepAudio, hc] using hinv
    | utterEnded tok =>
      by_cases hc : tok = s.activeRequestId <;> simpa [stepAudio, hc] using hinv
    | errorCatch tok =>
      by_cases hc : tok = s.activeRequestId <;> simpa [stepAudio, hc] using hinv
    | noSynthTimer tok => simpa [stepAudio] using hinv
  refine ⟨fun s => ⟨(hbegin s).1, (hbegin s).2.2, by rw [(hbegin s).2.2]; omega⟩,
    fun s evs => hmono evs s, ?_, ?_, ?_⟩
  · intro s evs
    have h1 := hmono evs (playCallBegin s).1
    have h2 := (hbegin s).2.1
    have h3 := (hbegin s).2.2
    have h4 := (hbegin (runAudio (playCallBegin s).1 evs).1).2.2
    omega
  · intro s tok h
    refine ⟨?_, ?_, ?_, ?_⟩ <;> simp only [stepAudio, if_neg h]
  · intro s evs hinv
    induction evs generalizing s with
    | nil => simpa [runAudio] using hinv
    | cons ev evs ih =>
      rw [show (runAudio s (ev :: evs)).1 = (runAudio (stepAudio s ev).1 evs).1 from by
        rw [runAudio]]
      exact ih _ (hstepInv s ev hinv)

/-- Witness for C2: the stale-token guards fire nothing at a concrete
stale token, and the single-source invariant is preserved across a
concrete run. -/
theorem playTextToSpeech_token_guard_witness :
    (stepAudio { activeRequestId := 5, currentSource := none }
      (AudioEvent.sourceEnded 3)).2 = [] ∧
    audioInv (runAudio { activeRequestId := 0, currentSource := none }
      [AudioEvent.play, AudioEvent.sourceStart 2]).1 := by
  refine ⟨(playTextToSpeech_token_guard.2.2.2.1 _ 3 (by decide)).1, ?_⟩
  apply playTextToSpeech_token_guard.2.2.2.2
  intro t ht
  cases ht

/-! ## Playback engine (`StoryPlayer.tsx`)

The engine owns `currentNodeId` (mirrored into `currentNodeIdRef` for
asynchronous callbacks), the interaction state and the feedback text.  The
story graph is an association list from node id to node.  Callbacks to the
host (`onChoiceMade`, `onComplete`), narration requests
(`playTextToSpeech`) and scheduled timeouts are recorded as effects; an
empty effect list together with an unchanged state is a no-op. -/

inductive InteractionState
  | reading
  | waiting
  | listening
  | processing
  | guiding
deriving DecidableEq

structure EngineState where
  currentNodeId : Str
  interactionState : InteractionState
  feedbackText : Str
deriving DecidableEq

/-- `story.nodes[id]` on the association-list representation. -/
def lookupNode : List (Str × StoryNode) → Str → Option StoryNode
  | [], _ => none
  | (k, n) :: rest, id => if k = id then some n else lookupNode rest id

inductive Effect
  | choiceMade (label typ step : Str) (transcript : Option Str)
  | complete
  | playSpeech (text : Str)
  | scheduleAdvance (id : Str)
  | scheduleComplete
  | scheduleListen
  | scheduleAccept (idx : Nat) (transcript : Str)
deriving DecidableEq

/-- `safeSetNode` (StoryPlayer.tsx lines 54-58): set `currentNodeId` and
reset the interaction state to `reading`. -/
def safeSetNode (s : EngineState) (nextId : Str) : EngineState :=
  { s with currentNodeId := nextId, interactionState := InteractionState.reading }

/-- `handleChoice` (StoryPlayer.tsx lines 60-83):

```
const handleChoice = (index, explicitTranscript?) => {
    const currentRefNode = story.nodes[currentNodeIdRef.current];
    if (!currentRefNode?.options) return;
    const choice = currentRefNode.options[index];
    if (!choice) return;
    onChoiceMade(choice.label, choice.type, currentNodeIdRef.current,
        explicitTranscript, [...speechHistoryRef.current]);
    if (story.nodes[choice.next]) { safeSetNode(choice.next); }
    else { console.warn(...); onComplete(); }
};
```
-/
def handleChoice (nodes : List (Str × StoryNode)) (s : EngineState)
    (index : Nat) (explicitTranscript : Option Str) : EngineState × List Effect :=
  match lookupNode nodes s.currentNodeId with
  | none => (s, [])
  | some n =>
    match n.options with
    | none => (s, [])
    | some opts =>
      match opts[index]? with
      | none => (s, [])
      | some choice =>
        match lookupNode nodes choice.next with
        | some _ =>
          (safeSetNode s choice.next,
            [Effect.choiceMade choice.label choice.type s.currentNodeId explicitTranscript])
        | none =>
          (s, [Effect.choiceMade choice.label choice.type s.currentNodeId explicitTranscript,
               Effect.complete])

/-- The delayed local-match acceptance inside `handleSpeechEnd`
(StoryPlayer.tsx lines 163-167): the body of

```
setTimeout(() => {
    if (currentNodeIdRef.current === activeNodeId) { handleChoice(localMatchIndex, cleanText); }
}, 600);
```

executed when the feedback timeout fires. -/
def localAcceptFire (nodes : List (Str × StoryNode)) (activeNodeId : Str)
    (localMatchIndex : Nat) (cleanText : Str) (s : EngineState) : EngineState × List Effect :=
  if s.currentNodeId = activeNodeId then
    handleChoice nodes s localMatchIndex (some cleanText)
  else (s, [])

inductive AnalyzeAction
  | selectOption
  | askClarification
  | unknown
deriving DecidableEq

/-- The result shape of the remote classifier `analyzeChildInput`. -/
structure AnalyzeResult where
  action : AnalyzeAction
  selectedOptionIndex : Option Nat
  replyText : Option Str
deriving DecidableEq

/-- The continuation of `handleSpeechEnd` after `await analyzeChildInput`
(StoryPlayer.tsx lines 179-212):

```
if (currentNodeIdRef.current !== activeNodeId) return;
if (result.action === 'SELECT_OPTION' && result.selectedOptionIndex !== undefined) {
    const choice = activeNode.options![result.selectedOptionIndex];
    if (choice) {
        setFeedbackText(`听到了！选 ${choice.label}`);
        setTimeout(() => { if (...) handleChoice(result.selectedOptionIndex!, cleanText); }, 800);
        return;
    }
}
setInteractionState('guiding');
setFeedbackText("AI正在回应...");
const reply = result.replyText || "你是想选哪个呢？";
playTextToSpeech({ text: reply, ..., onEnd: ... });
```

(`activeNode.options!` is non-null here because `handleSpeechEnd` returns
early for nodes without options; the model uses `getD []`). -/
def remoteResolveFire (nodes : List (Str × StoryNode)) (activeNodeId : Str)
    (activeNode : StoryNode) (result : AnalyzeResult) (cleanText : Str)
    (s : EngineState) : EngineState × List Effect :=
  if s.currentNodeId ≠ activeNodeId then (s, [])
  else
    match result.action, result.selectedOptionIndex with
    | AnalyzeAction.selectOption, some idx =>
      match (activeNode.options.getD [])[idx]? with
      | some choice =>
        ({ s with feedbackText := "听到了！选 ".data ++ choice.label },
          [Effect.scheduleAccept idx cleanText])
      | none =>
        ({ s with interactionState := InteractionState.guiding,
                  feedbackText := "AI正在回应...".data },
          [Effect.playSpeech (result.replyText.getD "你是想选哪个呢？".data)])
    | _, _ =>
      ({ s with interactionState := InteractionState.guiding,
                feedbackText := "AI正在回应...".data },
        [Effect.playSpeech (result.replyText.getD "你是想选哪个呢？".data)])

/-- C1: if the engine's current node id has moved from `A` to some `B ≠ A`
before a speech-classification result arrives — either the delayed local
match acceptance or the remote `analyzeChildInput` resolution — handling
the result is a no-op: the state (in particular `currentNodeId`) is
unchanged and no effect is produced, so `handleChoice` is not invoked
(no `choiceMade`, no node transition) and no narration is triggered
(no `playSpeech`, no scheduled timeout). -/
theorem stale_classification_noop
    (nodes : List (Str × StoryNode)) (activeNodeId : Str) (activeNode : StoryNode)
    (result : AnalyzeResult) (localMatchIndex : Nat) (cleanText : Str)
    (s : EngineState) (h : s.currentNodeId ≠ activeNodeId) :
    localAcceptFire nodes activeNodeId localMatchIndex cleanText s = (s, []) ∧
    remoteResolveFire nodes activeNodeId activeNode result cleanText s = (s, []) := by
  constructor
  · rw [localAcceptFire, if_neg h]
  · rw [remoteResolveFire, if_pos h]

/-- Witness for C1: the engine sits on node `b` while a classification
begun on node `a` resolves; both handlers are no-ops. -/
theorem stale_classification_noop_witness :
    localAcceptFire [] "a".data 0 "去追".data
        { currentNodeId := "b".data, interactionState := InteractionState.processing,
          feedbackText := [] } =
      ({ currentNodeId := "b".data, interactionState := InteractionState.processing,
         feedbackText := [] }, []) ∧
    remoteResolveFire [] "a".data
        { id := "a".data, text := [], audioText := none, type := NodeType.choice,
          next := none, question := none, options := some [] }
        { action := AnalyzeAction.selectOption, selectedOptionIndex := some 0,
          replyText := none }
        "去追".data
        { currentNodeId := "b".data, interactionState := InteractionState.processing,
          feedbackText := [] } =
      ({ currentNodeId := "b".data, interactionState := InteractionState.processing,
         feedbackText := [] }, []) :=
  stale_classification_noop [] "a".data _ _ 0 "去追".data _ (by decide)

/-- The `onEnd` continuation of `speakCurrentNode` (StoryPlayer.tsx lines
326-363), which runs when the node's narration finishes:

```
onEnd: () => {
    if (currentNodeIdRef.current !== currentNode.id) return;
    if (currentNode.type === 'end') { setFeedbackText("故事结束啦"); setTimeout(onComplete, 3000); }
    else if (currentNode.type === 'linear') {
        setFeedbackText("继续讲下去..."); setInteractionState('waiting');
        if (currentNode.next && story.nodes[currentNode.next]) {
            setTimeout(() => { if (...) safeSetNode(currentNode.next!); }, 1200);
        } else { setTimeout(() => { onComplete(); }, 3000); }
    }
    else if (currentNode.type === 'choice') {
        setInteractionState('waiting'); setFeedbackText("说完后再听你说...");
        setTimeout(() => { ... setInteractionState('listening'); startListening(); ... }, 600);
    }
}
```
-/
def speakOnEnd (nodes : List (Str × StoryNode)) (node : StoryNode)
    (s : EngineState) : EngineState × List Effect :=
  if s.currentNodeId ≠ node.id then (s, [])
  else
    match node.type with
    | NodeType.endNode =>
      ({ s with feedbackText := "故事结束啦".data }, [Effect.scheduleComplete])
    | NodeType.linear =>
      let s1 := { s with feedbackText := "继续讲下去...".data,
                         interactionState := InteractionState.waiting }
      match node.next with
      | some nxt =>
        if nxt = [] then (s1, [Effect.scheduleComplete])
        else
          match lookupNode nodes nxt with
          | some _ => (s1, [Effect.scheduleAdvance nxt])
          | none => (s1, [Effect.scheduleComplete])
      | none => (s1, [Effect.scheduleComplete])
    | NodeType.choice =>
      ({ s with interactionState := InteractionState.waiting,
                feedbackText := "说完后再听你说...".data }, [Effect.scheduleListen])

/-- C7: a dangling successor is a terminal condition, never a crash.  For
a linear node whose `next` id does not resolve in the graph, the narration
`onEnd` handler schedules the session-complete notification and does not
advance the node; and for a chosen option whose `next` id does not resolve,
`handleChoice` records the choice and invokes `onComplete` while leaving
`currentNodeId` unchanged. -/
theorem dangling_reference_completes
    (nodes : List (Str × StoryNode)) (node : StoryNode) (s1 s2 : EngineState) (nxt : Str) :
    (s1.currentNodeId = node.id → node.type = NodeType.linear → node.next = some nxt →
      lookupNode nodes nxt = none →
      (speakOnEnd nodes node s1).2 = [Effect.scheduleComplete] ∧
      (speakOnEnd nodes node s1).1.currentNodeId = s1.currentNodeId) ∧
    (∀ (idx : Nat) (tr : Option Str) (n : StoryNode) (opts : List StoryOption)
        (choice : StoryOption),
      lookupNode nodes s2.currentNodeId = some n → n.options = some opts →
      opts[idx]? = some choice → lookupNode nodes choice.next = none →
      handleChoice nodes s2 idx tr =
        (s2, [Effect.choiceMade choice.label choice.type s2.currentNodeId tr,
              Effect.complete])) := by
  constructor
  · intro hid htype hnext hmiss
    have hguard : ¬ s1.currentNodeId ≠ node.id := by simp [hid]
    rw [speakOnEnd, if_neg hguard]
    by_cases hempty : nxt = []
    · simp only [htype, hnext, if_pos hempty]
      exact ⟨trivial, trivial⟩
    · simp only [htype, hnext, if_neg hempty, hmiss]
      exact ⟨trivial, trivial⟩
  · intro idx tr n opts choice hn hopts hchoice hdangling
    simp only [handleChoice, hn, hopts, hchoice, hdangling]

/-- Witness for C7: a concrete two-node story in which the linear `start`
node points at a missing node and the choice node's only option points at
a missing node. -/
def c7Story : List (Str × StoryNode) :=
  [ ("start".data,
      { id := "start".data, text := "出发".data, audioText := none,
        type := NodeType.linear, next := some "missing".data,
        question := none, options := none }),
    ("q".data,
      { id := "q".data, text := "选什么".data, audioText := none,
        type := NodeType.choice, next := none, question := none,
        options := some [ { label := "去追".data, text := "我要去追".data,
                            keywords := none, next := "gone".data,
                            type := "Confidence".data } ] }) ]

theorem dangling_reference_completes_witness :
    ((speakOnEnd c7Story
        { id := "start".data, text := "出发".data, audioText := none,
          type := NodeType.linear, next := some "missing".data,
          question := none, options := none }
        { currentNodeId := "start".data, interactionState := InteractionState.reading,
          feedbackText := [] }).2 = [Effect.scheduleComplete] ∧
      (speakOnEnd c7Story
        { id := "start".data, text := "出发".data, audioText := none,
          type := NodeType.linear, next := some "missing".data,
          question := none, options := none }
        { currentNodeId := "start".data, interactionState := InteractionState.reading,
          feedbackText := [] }).1.currentNodeId = "start".data) ∧
    handleChoice c7Story
        { currentNodeId := "q".data, interactionState := InteractionState.processing,
          feedbackText := [] } 0 (some "去追".data) =
      ({ currentNodeId := "q".data, interactionState := InteractionState.processing,
         feedbackText := [] },
        [Effect.choiceMade "去追".data "Confidence".data "q".data (some "去追".data),
         Effect.complete]) := by
  have h := dangling_reference_completes c7Story
    { id := "start".data, text := "出发".data, audioText := none,
      type := NodeType.linear, next := some "missing".data,
      question := none, options := none }
    { currentNodeId := "start".data, interactionState := InteractionState.reading,
      feedbackText := [] }
    { currentNodeId := "q".data, interactionState := InteractionState.processing,
      feedbackText := [] }
    "missing".data
  refine ⟨h.1 rfl rfl rfl (by decide), ?_⟩
  exact h.2 0 (some "去追".data)
    { id := "q".data, text := "选什么".data, audioText := none,
      type := NodeType.choice, next := none, question := none,
      options := some [ { label := "去追".data, text := "我要去追".data,
                          keywords := none, next := "gone".data,
                          type := "Confidence".data } ] }
    [ { label := "去追".data, text := "我要去追".data, keywords := none,
        next := "gone".data, type := "Confidence".data } ]
    { label := "去追".data, text := "我要去追".data, keywords := none,
      next := "gone".data, type := "Confidence".data }
    (by decide) rfl rfl (by decide)

/-! ## Speech capture unit (`useSpeechRecognition.ts`)

```
recognition.onstart = () => {
    setIsListening(true); finalTranscriptRef.current = ''; setTranscript('');
    if (noSpeechTimerRef.current) clearTimeout(noSpeechTimerRef.current);
    noSpeechTimerRef.current = setTimeout(() => { ... recognition.stop(); ... }, 8000);
};
recognition.onresult = (event) => {
    recognition.resultReceived = true;
    if (noSpeechTimerRef.current) clearTimeout(noSpeechTimerRef.current);
    ... const currentText = final || interim;
    setTranscript(currentText);
    if (final) finalTranscriptRef.current += final;
    if (onResult) onResult(currentText);
    if (silenceTimerRef.current) clearTimeout(silenceTimerRef.current);
    silenceTimerRef.current = setTimeout(() => { ... recognition.stop(); ... }, silenceDuration);
};
recognition.onend = () => {
    setIsListening(false);
    if (silenceTimerRef.current) clearTimeout(silenceTimerRef.current);
    if (noSpeechTimerRef.current) clearTimeout(noSpeechTimerRef.current);
    const result = finalTranscriptRef.current || transcript;
    if (onEnd) onEnd(result);
};
const startListening = () => { ... if (recognitionRef.current && !isListening) {
    finalTranscriptRef.current = ''; setTranscript(''); recognitionRef.current.start(); } };
const stopListening = () => { ... recognitionRef.current.stop(); ... };
const abortListening = () => { ... recognitionRef.current.abort(); setIsListening(false);
    if (silenceTimerRef.current) clearTimeout(silenceTimerRef.current);
    if (noSpeechTimerRef.current) clearTimeout(noSpeechTimerRef.current); ... };
```

Timer refs are modelled as armed/cleared booleans.  The platform events
`recStart`, `recResult` and `recEnd` execute the handler code installed on
the recognition object.  The Web Speech API fires the `end` event whenever
the recognition service disconnects — after `stop()`, after `abort()`, or
on a natural end; the hook itself depends on this (its only call to the
`onEnd` prop is inside `recognition.onend`, so `stopListening` delivers a
transcript only because `end` fires afterwards), and it sets no flag that
would let `recognition.onend` distinguish an aborted session. -/

structure HookState where
  isListening : Bool
  transcript : Str
  finalTranscript : Str
  silenceTimer : Bool
  noSpeechTimer : Bool
  resultReceived : Bool
deriving DecidableEq

inductive HookEvent
  | start
  | stop
  | abort
  | recStart
  | recResult (finalText interimText : Str)
  | recEnd
  | noSpeechFire
  | silenceFire
deriving DecidableEq

inductive HookCB
  | onResult (text : Str)
  | onEnd (text : Str)
deriving DecidableEq

def stepHook (s : HookState) : HookEvent → HookState × List HookCB
  | HookEvent.start =>
    if s.isListening then (s, [])
    else ({ s with finalTranscript := [], transcript := [] }, [])
  | HookEvent.stop => (s, [])
  | HookEvent.abort =>
    ({ s with isListening := false, silenceTimer := false, noSpeechTimer := false }, [])
  | HookEvent.recStart =>
    ({ s with isListening := true, finalTranscript := [], transcript := [],
              noSpeechTimer := true }, [])
  | HookEvent.recResult finalText interimText =>
    let currentText := jsOrStr finalText interimText
    ({ s with resultReceived := true, noSpeechTimer := false,
              transcript := currentText,
              finalTranscript :=
                if finalText.isEmpty then s.finalTranscript
                else s.finalTranscript ++ finalText,
              silenceTimer := true },
      [HookCB.onResult currentText])
  | HookEvent.recEnd =>
    ({ s with isListening := false, silenceTimer := false, noSpeechTimer := false },
      [HookCB.onEnd (jsOrStr s.finalTranscript s.transcript)])
  | HookEvent.noSpeechFire => (s, [])
  | HookEvent.silenceFire => (s, [])

def runHook (s : HookState) : List HookEvent → HookState × List HookCB
  | [] => (s, [])
  | ev :: evs =>
    ((runHook (stepHook s ev).1 evs).1,
      (stepHook s ev).2 ++ (runHook (stepHook s ev).1 evs).2)

def hookInit : HookState :=
  { isListening := false, transcript := [], finalTranscript := [],
    silenceTimer := false, noSpeechTimer := false, resultReceived := false }

/-- C9 counterexample: after a capture session in which the child said
`去追`, calling `abort()` cancels both timers and emits nothing itself —
but the platform `end` event that follows the abort still runs
`recognition.onend`, which invokes `onEnd` with the accumulated
transcript.  The hook therefore does not guarantee that `onEnd` is never
invoked as a consequence of an abort. -/
theorem abort_does_not_suppress_onEnd :
    (runHook hookInit
        [HookEvent.start, HookEvent.recStart, HookEvent.recResult "去追".data [],
         HookEvent.abort, HookEvent.recEnd]).2 =
      [HookCB.onResult "去追".data, HookCB.onEnd "去追".data] ∧
    (stepHook (runHook hookInit
        [HookEvent.start, HookEvent.recStart,
         HookEvent.recResult "去追".data []]).1 HookEvent.abort).2 = [] := by
  constructor
  · rfl
  · rfl

/-- C9 (amended): `abortListening` immediately tears down the capture
session — it stops listening and cancels both safety timers (the no-speech
timer and the silence-after-speech timer) — and itself invokes no
callback and emits no transcript, leaving the transcript buffers
untouched; it does not, however, suppress a subsequent platform `end`
event, whose handler still invokes `onEnd` with the accumulated
transcript. -/
theorem abortListening_cancels_timers (s : HookState) :
    stepHook s HookEvent.abort =
      ({ s with isListening := false, silenceTimer := false, noSpeechTimer := false }, []) :=
  rfl
